import Mathlib

/-!
# Verification of the UDP hole-punching client

A shallow embedding of `src/main.rs` of the `udp-hole-punching-client`
repository, together with proofs of the behavioural properties claimed by
its specification.

The embedding models:

* `register` (main.rs lines 24-42): the registration packet layout and the
  trace of UDP sends and sleeps performed by the registration loop;
* `get_peer_address` (main.rs lines 44-95): the HTTP retry loop as a pure
  function of the sequence of server responses, returning the final result
  together with the trace of sleeps and the number of HTTP requests issued;
* `main` (main.rs lines 97-156): the order of its phases as an event list,
  the stdin-reader thread's loop body, the duplex-session select loop, and
  the final `ctrl_c().await` exit condition.

Machine integers are modelled as `Nat` (no overflow is reachable: all
arithmetic is on small constants), byte payloads as `List Nat`, and Rust
strings as `String` or `List Char` as convenient.
-/

set_option autoImplicit false

/-! ## Rust standard-library primitives used by the source

`str::trim` removes leading and trailing whitespace.  The source calls it
on the HTTP response body (main.rs line 76) and on each stdin line
(main.rs line 110).  We model the ASCII whitespace characters that can
occur in terminal input and HTTP bodies.
-/

/-- Whitespace as recognised by Rust `char::is_whitespace`, restricted to
the ASCII range (space, tab, newline, carriage return, vertical tab, form
feed). -/
def isRustWhitespace (c : Char) : Bool :=
  c = ' ' || c = '\t' || c = '\n' || c = '\r' || c = '\x0b' || c = '\x0c'

/-- Model of Rust `str::trim` on a list of characters: drop leading and
trailing whitespace. -/
def rustTrim (l : List Char) : List Char :=
  ((l.dropWhile isRustWhitespace).reverse.dropWhile isRustWhitespace).reverse

/-- Model of Rust `str::trim` on a `String`. -/
def trimStr (s : String) : String :=
  String.mk (rustTrim s.data)

/-- Stripping one trailing newline (`"\n"` or `"\r\n"`) from a line, as the
spec's words "trailing newline stripped" describe it.  This is a spec-side
definition used to compare the spec's description of the send path with
what the source actually does (`str::trim`). -/
def stripTrailingNewline (l : List Char) : List Char :=
  if l.getLast? = some '\n' then
    if l.dropLast.getLast? = some '\r' then l.dropLast.dropLast else l.dropLast
  else l

/-! ## The stdin-reader thread (main.rs lines 105-121)

The thread repeatedly calls `read_line`; on `Ok` it trims the line, skips
it when empty, otherwise forwards it into the channel (exiting when the
channel is closed); on `Err` it exits.  Note that at end-of-file Rust's
`read_line` returns `Ok(0)` having appended nothing, so the loop body sees
`Ok` with an empty line.
-/

/-- Result of one `read_line` call: `ok line` for `Ok(n)` with `line` the
characters appended (empty at end-of-file, where `read_line` returns
`Ok(0)`), `err` for `Err(_)`. -/
inductive ReadLineResult where
  | ok (line : List Char)
  | err
  deriving DecidableEq, Repr

/-- What one iteration of the stdin-reader loop does. -/
inductive ThreadStep where
  | continueLoop
  | sendAndContinue (msg : List Char)
  | exitLoop
  deriving DecidableEq, Repr

/-- One iteration of the stdin-reader thread's loop (main.rs lines
107-120): on a successful read the line is trimmed, an empty result is
skipped, a non-empty one is sent into the channel (the thread exits if the
channel is closed); a read error exits the loop. -/
def stdinThreadStep (r : ReadLineResult) (channelOpen : Bool) : ThreadStep :=
  match r with
  | .ok line =>
    let msg := rustTrim line
    if msg = [] then .continueLoop
    else if channelOpen then .sendAndContinue msg else .exitLoop
  | .err => .exitLoop

/-- The loop iteration the stdin thread performs once stdin is at
end-of-file: `read_line` returns `Ok(0)`, so the body sees an empty
line. -/
def stdinStepAtEof (channelOpen : Bool) : ThreadStep :=
  stdinThreadStep (.ok []) channelOpen

/-- The message forwarded to the peer for one stdin line, if any
(main.rs lines 109-116): the line is trimmed with `str::trim` and dropped
when the result is empty. -/
def processInputLine (line : List Char) : Option (List Char) :=
  let msg := rustTrim line
  if msg = [] then none else some msg

/-- Whether `main` terminates normally.  After the punch loop, `main`
executes `ctrl_c().await?` and returns `Ok(())` (main.rs lines 152-155):
the await completes exactly when an operating-system interrupt is
delivered.  Nothing in `main` observes the stdin thread or the channel, so
the second argument (whether stdin has reached end-of-file) does not occur
in the body. -/
def mainExitsNormally (interrupt : Bool) (_stdinEof : Bool) : Bool :=
  interrupt

/-! ## The peer resolver `get_peer_address` (main.rs lines 44-95)

The loop issues one HTTP GET per attempt, for attempts `1..=5`.  We model
the server by a function from the (1-based) attempt number to the response
observed by that attempt, and record the trace: the final result, the
sleeps performed between attempts (in milliseconds, in order), and the
number of HTTP requests issued.  Address parsing
(`body.trim().parse::<SocketAddr>()`) is the standard library's parser,
abstracted as a `parse` parameter; reading the response body
(`response.text()`) is modelled as returning the body carried by the
response.
-/

/-- The outcome of one HTTP request: a transport error
(`client.get(..).send()` returned `Err`), or a response with a status code
and a body. -/
inductive HttpResponse where
  | transportError
  | status (code : Nat) (body : String)
  deriving DecidableEq, Repr

/-- The failure cases of `get_peer_address`, carrying the data that the
source interpolates into the corresponding error message. -/
inductive ResolveError where
  | networkError (attempt maxRetries : Nat)
  | parseFailure (body : String)
  | peerNotFound (peer : String)
  | unexpectedStatus (code : Nat)
  | exhausted (maxRetries : Nat)
  deriving DecidableEq, Repr

/-- The observable trace of one run of `get_peer_address`: its result, the
sleeps performed (milliseconds, in order), and the number of HTTP requests
issued. -/
structure ResolveTrace (A : Type) where
  result : Except ResolveError A
  sleeps : List Nat
  requests : Nat
  deriving Repr

/-- The retry loop of `get_peer_address` (main.rs lines 51-92).  `fuel` is
the number of loop iterations still permitted by `for attempt in
1..=max_retries` (the `fuel = 0` case is the unreachable post-loop `bail!`
at line 94); `attempt` is the current attempt number; `backoff` the
current transport backoff in milliseconds.  A transport error with
attempts remaining sleeps `backoff` and doubles it (capped at 5000 ms); a
404 with attempts remaining sleeps a fixed 600 ms and resets the backoff
to 400 ms; a 200 parses the trimmed body, a parse failure being fatal; any
other status is fatal. -/
def resolveAux {A : Type} (parse : String → Option A) (peer : String)
    (responses : Nat → HttpResponse) (maxRetries : Nat) :
    Nat → Nat → Nat → List Nat → Nat → ResolveTrace A
  | 0, _, _, sleeps, reqs => ⟨.error (.exhausted maxRetries), sleeps, reqs⟩
  | fuel+1, attempt, backoff, sleeps, reqs =>
    match responses attempt with
    | .transportError =>
      if attempt < maxRetries then
        resolveAux parse peer responses maxRetries fuel (attempt+1)
          (min (backoff * 2) 5000) (sleeps ++ [backoff]) (reqs+1)
      else ⟨.error (.networkError attempt maxRetries), sleeps, reqs+1⟩
    | .status code body =>
      if code = 200 then
        match parse (trimStr body) with
        | some a => ⟨.ok a, sleeps, reqs+1⟩
        | none => ⟨.error (.parseFailure (trimStr body)), sleeps, reqs+1⟩
      else if code = 404 then
        if attempt < maxRetries then
          resolveAux parse peer responses maxRetries fuel (attempt+1)
            400 (sleeps ++ [600]) (reqs+1)
        else ⟨.error (.peerNotFound peer), sleeps, reqs+1⟩
      else ⟨.error (.unexpectedStatus code), sleeps, reqs+1⟩

/-- `get_peer_address` (main.rs lines 44-95): five attempts, initial
backoff 400 ms. -/
def get_peer_address {A : Type} (parse : String → Option A) (peer : String)
    (responses : Nat → HttpResponse) : ResolveTrace A :=
  resolveAux parse peer responses 5 5 1 400 [] 0

/-- A response on which the loop retries when attempts remain: a transport
error or an HTTP 404. -/
def isRetryable : HttpResponse → Bool
  | .transportError => true
  | .status code _ => code = 404

/-! ## The registration client `register` (main.rs lines 24-42) -/

/-- The UTF-8 bytes of one character, as natural numbers. -/
def utf8CharBytes (c : Char) : List Nat :=
  (String.utf8EncodeChar c).map UInt8.toNat

/-- The UTF-8 bytes of a string, as natural numbers (`str::as_bytes` in
the source). -/
def utf8Bytes (s : String) : List Nat :=
  s.toUTF8.data.toList.map UInt8.toNat

/-- The registration packet built by `register` (main.rs lines 30-33):
the byte `0x00`, the UTF-8 bytes of the name, the byte `0xFF`. -/
def registrationPacket (name : String) : List Nat :=
  0x00 :: (utf8Bytes name ++ [0xFF])

/-- One observable action of `register`: a UDP send of a payload to an
address, or a sleep (milliseconds). -/
inductive RegEvent where
  | sendTo (payload : List Nat) (ip : String) (port : Nat)
  | sleep (ms : Nat)
  deriving DecidableEq, Repr

/-- The trace of `register`'s loop (main.rs lines 37-40): for each of the
3 iterations, one send of the registration packet to `rendezvous:4200`
followed by a 200 ms sleep. -/
def registerTrace (rendezvous : String) (name : String) : List RegEvent :=
  (List.range 3).flatMap fun _ =>
    [.sendTo (registrationPacket name) rendezvous 4200, .sleep 200]

/-! ## Decoding registration packets

The decoder lives on the rendezvous server, which is outside this
repository; the spec's round-trip property (§8) requires one.  Modelled
from the spec: a well-formed packet is `0x00 || name-bytes || 0xFF`;
decoding strips the leading `0x00` and the trailing `0xFF` and recovers
the name from its UTF-8 bytes.
-/

/-- Modelled from the spec: strip the framing bytes of a registration
packet (`0x00 || name-bytes || 0xFF`), recovering the name bytes; the
decoder itself belongs to the rendezvous server, which is not part of this
repository. -/
def decodeRegistrationPacket : List Nat → Option (List Nat)
  | b :: rest =>
    if b = 0 ∧ rest.getLast? = some 255 then some rest.dropLast else none
  | [] => none

/-- Build a character from a code point, when valid. -/
def mkCodePoint (n : Nat) : Option Char :=
  if h : n.isValidChar then some (Char.ofNatAux n h) else none

/-- Whether a byte is a UTF-8 continuation byte (`10xxxxxx`). -/
def isUtf8Cont (b : Nat) : Prop :=
  0x80 ≤ b ∧ b < 0xc0

instance (b : Nat) : Decidable (isUtf8Cont b) := by
  unfold isUtf8Cont; infer_instance

/-- Decode the single continuation byte of a 2-byte UTF-8 sequence with
lead byte `b0`. -/
def decodeUtf8Cont1 (b0 : Nat) : List Nat → Option (Char × List Nat)
  | b1 :: rest1 =>
    if isUtf8Cont b1 then
      (mkCodePoint ((b0 - 0xc0) * 64 + (b1 - 0x80))).map (·, rest1)
    else none
  | _ => none

/-- Decode the two continuation bytes of a 3-byte UTF-8 sequence with
lead byte `b0`. -/
def decodeUtf8Cont2 (b0 : Nat) : List Nat → Option (Char × List Nat)
  | b1 :: b2 :: rest2 =>
    if isUtf8Cont b1 ∧ isUtf8Cont b2 then
      (mkCodePoint ((b0 - 0xe0) * 4096 + (b1 - 0x80) * 64 + (b2 - 0x80))).map
        (·, rest2)
    else none
  | _ => none

/-- Decode the three continuation bytes of a 4-byte UTF-8 sequence with
lead byte `b0`. -/
def decodeUtf8Cont3 (b0 : Nat) : List Nat → Option (Char × List Nat)
  | b1 :: b2 :: b3 :: rest3 =>
    if isUtf8Cont b1 ∧ isUtf8Cont b2 ∧ isUtf8Cont b3 then
      (mkCodePoint ((b0 - 0xf0) * 262144 + (b1 - 0x80) * 4096
        + (b2 - 0x80) * 64 + (b3 - 0x80))).map (·, rest3)
    else none
  | _ => none

/-- Decode one UTF-8-encoded character from the front of a byte list,
returning the character and the remaining bytes. -/
def decodeUtf8Char : List Nat → Option (Char × List Nat)
  | [] => none
  | b0 :: rest =>
    if b0 < 0x80 then
      (mkCodePoint b0).map (·, rest)
    else if 0xc0 ≤ b0 ∧ b0 < 0xe0 then
      decodeUtf8Cont1 b0 rest
    else if 0xe0 ≤ b0 ∧ b0 < 0xf0 then
      decodeUtf8Cont2 b0 rest
    else if 0xf0 ≤ b0 ∧ b0 < 0xf8 then
      decodeUtf8Cont3 b0 rest
    else none

/-- Decode a whole UTF-8 byte list into characters; `fuel` bounds the
number of characters (the byte length suffices). -/
def decodeUtf8Go : Nat → List Nat → Option (List Char)
  | _, [] => some []
  | 0, _ :: _ => none
  | fuel+1, b :: rest =>
    (decodeUtf8Char (b :: rest)).bind fun cr =>
      (decodeUtf8Go fuel cr.2).map (cr.1 :: ·)

/-- Decode a UTF-8 byte list into a string. -/
def decodeUtf8 (bytes : List Nat) : Option String :=
  (decodeUtf8Go bytes.length bytes).map String.mk

/-- Modelled from the spec: full decoding of a registration packet back to
the registered name (strip the framing, then decode the name bytes as
UTF-8); the decoder belongs to the rendezvous server, which is not part of
this repository. -/
def decodeRegistrationName (packet : List Nat) : Option String :=
  (decodeRegistrationPacket packet).bind decodeUtf8

/-! ## The phases of `main` (main.rs lines 97-156)

`main` runs, in program order: `register`, `get_peer_address`, spawning
the stdin-reader thread, printing the chat banner, `tokio::spawn` of the
duplex-session select loop, then the punch loop (100 sends of `"punch"`
to the peer, each followed by a 25 ms sleep), the "Client running" notice,
and finally `ctrl_c().await`.  From the `spawnSessionTask` event onward
the duplex session runs concurrently with the remainder of `main`.
-/

/-- The successive actions of `main`'s own task, in program order. -/
inductive MainEvent where
  | registerPhase
  | resolvePhase
  | spawnStdinThread
  | printBanner
  | spawnSessionTask
  | punchSend (i : Nat)
  | punchSleep (i : Nat)
  | printRunning
  | awaitInterrupt
  deriving DecidableEq, Repr

/-- The event list of `main` (main.rs lines 97-156): registration, peer
resolution, stdin thread spawn, banner, session-task spawn, the 100
punch-send/sleep pairs, the running notice, the interrupt await. -/
def mainEvents : List MainEvent :=
  [.registerPhase, .resolvePhase, .spawnStdinThread, .printBanner,
    .spawnSessionTask]
  ++ ((List.range 100).flatMap fun i => [.punchSend i, .punchSleep i])
  ++ [.printRunning, .awaitInterrupt]

/-! ## The duplex-session select loop (main.rs lines 127-144)

The spawned task loops over `tokio::select!` with two arms: a datagram
received on the socket, and a message from the stdin channel.  We model
one loop iteration as a function from the event that fired to the lines
printed, and a run as the concatenation over an event list; the loop body
contains no `break` or `return`, so every event of a run is processed.
The 2048-byte receive buffer means `recv_from` hands the arm at most the
first 2048 bytes of the datagram; `String::from_utf8_lossy` is the
standard library's decoder, abstracted as a `decode` parameter.
-/

/-- The payload bytes the receive arm observes for an inbound datagram:
`recv_from` fills a 2048-byte buffer, so at most the first 2048 bytes. -/
def recvBufferedBytes (payload : List Nat) : List Nat :=
  payload.take 2048

/-- The line printed by the receive arm (main.rs lines 130-134) for a
datagram with the given payload from the given sender, or `none` when the
received length is zero. -/
def recvPrint (decode : List Nat → String) (src : String)
    (payload : List Nat) : Option String :=
  let len := min payload.length 2048
  if len = 0 then none
  else some ("[" ++ src ++ "] " ++ decode (recvBufferedBytes payload))

/-- One event observed by the select loop: an inbound datagram, or a
channel message together with whether `send_to` succeeds for it. -/
inductive SessEvent where
  | datagram (src : String) (payload : List Nat)
  | chanMsg (msg : List Char) (sendOk : Bool)

/-- The lines printed by one iteration of the select loop (main.rs lines
129-142): a non-empty datagram is printed tagged with its sender; a
channel message is sent to the peer and confirmed with a `Sent:` line only
when the send succeeds. -/
def sessionStep (decode : List Nat → String) : SessEvent → List String
  | .datagram src payload =>
    match recvPrint decode src payload with
    | some out => [out]
    | none => []
  | .chanMsg msg sendOk =>
    if sendOk then ["Sent: " ++ String.mk msg] else []

/-- The lines printed by a run of the select loop over a list of events.
The loop body has no exit path, so the whole list is processed. -/
def sessionRun (decode : List Nat → String) (events : List SessEvent) :
    List String :=
  events.flatMap (sessionStep decode)

/-! ## Helper lemmas -/

/-- Appending one whitespace character does not change the result of
`str::trim`. -/
theorem rustTrim_snoc_whitespace (l : List Char) (c : Char)
    (hc : isRustWhitespace c) : rustTrim (l ++ [c]) = rustTrim l := by
  unfold rustTrim
  rw [List.dropWhile_append]
  by_cases h : (l.dropWhile isRustWhitespace).isEmpty
  · have h' : l.dropWhile isRustWhitespace = [] := by simpa using h
    simp [h', List.dropWhile_cons, hc]
  · rw [if_neg h]
    simp [List.dropWhile_cons, hc]

/-- `str::trim` gives the same result whether or not the trailing newline
has first been stripped. -/
theorem rustTrim_stripTrailingNewline (l : List Char) :
    rustTrim (stripTrailingNewline l) = rustTrim l := by
  unfold stripTrailingNewline
  by_cases h1 : l.getLast? = some '\n'
  · obtain ⟨l1, rfl⟩ := List.getLast?_eq_some_iff.mp h1
    rw [if_pos (List.getLast?_concat l1)]
    rw [List.dropLast_concat]
    by_cases h2 : l1.getLast? = some '\r'
    · obtain ⟨l2, rfl⟩ := List.getLast?_eq_some_iff.mp h2
      rw [if_pos (List.getLast?_concat l2)]
      rw [List.dropLast_concat]
      rw [rustTrim_snoc_whitespace _ '\n' (by decide),
        rustTrim_snoc_whitespace _ '\r' (by decide)]
    · rw [if_neg h2, rustTrim_snoc_whitespace _ '\n' (by decide)]
  · rw [if_neg h1]

/-! ## C1: phase ordering of `main` -/

set_option maxRecDepth 4096 in
/-- C1 counterexample: the claim asserts that no chat traffic can happen
until all punch packets have been transmitted; but in `main` the duplex
session task is spawned (and starts running concurrently) before the
first punch packet is sent, so the first punch send does not precede the
session start. -/
theorem c1_counterexample :
    ¬ mainEvents.indexOf (.punchSend 0) < mainEvents.indexOf .spawnSessionTask := by
  decide

set_option maxRecDepth 8192 in
/-- C1 (amended): the actual phase ordering of `main` is Registration →
Peer Resolution → Duplex-Session spawn → Punch → await interrupt: the
session task is spawned before the first punch packet is transmitted, and
all 100 punch packets are transmitted before `main` reaches the final
interrupt await. -/
theorem c1_phase_order :
    mainEvents.indexOf .registerPhase < mainEvents.indexOf .resolvePhase ∧
    mainEvents.indexOf .resolvePhase < mainEvents.indexOf .spawnSessionTask ∧
    mainEvents.indexOf .spawnSessionTask < mainEvents.indexOf (.punchSend 0) ∧
    mainEvents.indexOf (.punchSend 99) < mainEvents.indexOf .printRunning ∧
    mainEvents.indexOf (.punchSend 99) < mainEvents.indexOf .awaitInterrupt := by
  decide

/-! ## C3: transport-error backoff -/

/-- C3: when every HTTP request fails with a transport error, the sleeps
taken are exactly 400, 800, 1600, 3200 ms — starting at 400 ms, doubling
each time (capped at 5000 ms), non-decreasing, never exceeding 5000 ms —
and after the 5th failed attempt the resolver fails with a network error
carrying the attempt count. -/
theorem c3_transport_error_backoff {A : Type} (parse : String → Option A)
    (peer : String) :
    get_peer_address parse peer (fun _ => HttpResponse.transportError) =
      ⟨.error (.networkError 5 5), [400, 800, 1600, 3200], 5⟩ ∧
    List.Chain' (fun a b => b = min (a * 2) 5000) [400, 800, 1600, 3200] ∧
    List.Chain' (· ≤ ·) [400, 800, 1600, 3200] ∧
    ∀ s ∈ [400, 800, 1600, 3200], 400 ≤ s ∧ s ≤ 5000 :=
  ⟨rfl, by simp [List.chain'_cons], by simp [List.chain'_cons], by decide⟩

/-! ## C5: termination conditions -/

/-- C5 counterexample: with stdin at end-of-file and no interrupt ever
delivered, `main` does not terminate (its final await completes only on
an interrupt), and the stdin-reader thread does not even leave its loop
(at end-of-file `read_line` returns `Ok(0)`, the trimmed line is empty,
and the loop continues); the claim asserts the process exits in this
situation. -/
theorem c5_counterexample :
    mainExitsNormally false true = false ∧
    stdinStepAtEof true = .continueLoop := by
  decide

/-- C5 (amended): the program terminates normally exactly when an
operating-system interrupt is delivered; stdin end-of-file does not
terminate the process — the reader thread keeps looping on the empty
reads and `main` waits only on the interrupt. -/
theorem c5_exit_only_on_interrupt : ∀ stdinEof : Bool,
    mainExitsNormally true stdinEof = true ∧
    mainExitsNormally false stdinEof = false ∧
    stdinStepAtEof true = .continueLoop ∧
    stdinStepAtEof false = .continueLoop := by
  decide

/-! ## C7: empty datagrams and empty lines -/

/-- C7: a zero-length datagram is never printed by the receive arm, and an
input line that is empty after stripping its trailing newline is never
sent (its `str::trim` is empty, so the stdin thread discards it). -/
theorem c7_empty_never_forwarded :
    (∀ (decode : List Nat → String) (src : String),
      recvPrint decode src [] = none) ∧
    ∀ line : List Char, stripTrailingNewline line = [] →
      processInputLine line = none := by
  refine ⟨fun decode src => rfl, fun line h => ?_⟩
  have ht : rustTrim line = [] := by
    rw [← rustTrim_stripTrailingNewline, h]; rfl
  simp [processInputLine, ht]

/-- C7 witness: the line consisting of a bare newline. -/
theorem c7_witness :
    stripTrailingNewline ['\n'] = [] ∧ processInputLine ['\n'] = none :=
  ⟨by decide, c7_empty_never_forwarded.2 ['\n'] (by decide)⟩

/-! ## C9: what exactly is sent for a non-empty input line -/

/-- C9 counterexample: for the input line `"  hi\t \n"` the source sends
`"hi"` (the line is passed through `str::trim`, which also removes
leading and trailing spaces and tabs), not `"  hi\t "` as the claim (strip
only the trailing newline) requires. -/
theorem c9_counterexample :
    processInputLine [' ', ' ', 'h', 'i', '\t', ' ', '\n'] = some ['h', 'i'] ∧
    stripTrailingNewline [' ', ' ', 'h', 'i', '\t', ' ', '\n']
      = [' ', ' ', 'h', 'i', '\t', ' '] ∧
    (['h', 'i'] : List Char) ≠ [' ', ' ', 'h', 'i', '\t', ' '] := by
  decide

/-- C9 (amended): the datagram payload sent for an input line is the line
with its trailing newline stripped and additionally all leading and
trailing whitespace (spaces, tabs, ...) removed by `str::trim`; interior
characters are transmitted unchanged, and the payload is never empty. -/
theorem c9_payload_is_trimmed_line : ∀ (line msg : List Char),
    processInputLine line = some msg →
    msg = rustTrim (stripTrailingNewline line) ∧ msg ≠ [] := by
  intro line msg h
  rw [rustTrim_stripTrailingNewline]
  unfold processInputLine at h
  by_cases he : rustTrim line = []
  · simp [he] at h
  · simp [he] at h
    exact ⟨h.symm, h ▸ he⟩

/-- C9 witness: the line `"h\n"` is sent as `"h"`. -/
theorem c9_witness :
    processInputLine ['h', '\n'] = some ['h'] ∧
    (['h'] : List Char) = rustTrim (stripTrailingNewline ['h', '\n']) ∧
    (['h'] : List Char) ≠ [] :=
  ⟨by decide, c9_payload_is_trimmed_line ['h', '\n'] ['h'] (by decide)⟩

/-! ## C8: a failed chat send -/

/-- C8 counterexample: when `send_to` fails for a message, the select-loop
iteration produces no output at all — the attempt is not reported to the
user as unsent (only a successful send prints a `Sent:` line); the session
does keep running, as the second run shows. -/
theorem c8_counterexample :
    sessionRun (fun _ => "") [.chanMsg ['h', 'i'] false] = [] ∧
    sessionRun (fun _ => "")
      [.chanMsg ['h', 'i'] false, .chanMsg ['o', 'k'] true]
      = ["Sent: ok"] := by
  constructor <;> rfl

/-- C8 (amended): if sending a chat message fails, the session continues —
all earlier and later events are still processed — but the failed attempt
is silently dropped: it contributes no output (in particular no report of
being unsent). -/
theorem c8_failed_send_silent : ∀ (decode : List Nat → String)
    (pre post : List SessEvent) (msg : List Char),
    sessionRun decode (pre ++ .chanMsg msg false :: post)
      = sessionRun decode pre ++ sessionRun decode post := by
  intro decode pre post msg
  simp [sessionRun, sessionStep]

/-! ## C10: the 2048-byte receive buffer -/

/-- C10: the receive arm reads into a fixed 2048-byte buffer, so what is
printed depends only on the first 2048 bytes of the inbound datagram: the
printed line decodes exactly `payload.take 2048`, and for a datagram
longer than 2048 bytes the decoded prefix has length exactly 2048 (the
remaining bytes are silently discarded). -/
theorem c10_receive_truncates : ∀ (decode : List Nat → String)
    (src : String) (payload : List Nat),
    recvPrint decode src payload
      = recvPrint decode src (recvBufferedBytes payload) ∧
    (payload ≠ [] →
      recvPrint decode src payload
        = some ("[" ++ src ++ "] " ++ decode (payload.take 2048))) ∧
    (2048 < payload.length → (recvBufferedBytes payload).length = 2048) := by
  intro decode src payload
  refine ⟨?_, fun h => ?_, fun h => ?_⟩
  · unfold recvPrint recvBufferedBytes
    have hm : min (min 2048 payload.length) 2048 = min payload.length 2048 := by
      omega
    simp only [List.length_take, List.take_take, Nat.min_self, hm]
  · unfold recvPrint
    have hl : 0 < payload.length := List.length_pos.mpr h
    rw [if_neg (by omega)]
    rfl
  · unfold recvBufferedBytes
    rw [List.length_take]
    omega

/-- C10 witness: a one-byte datagram is printed, decoding its (complete)
buffered prefix. -/
theorem c10_witness :
    recvPrint (fun _ => "x") "a" [7] = some ("[" ++ "a" ++ "] " ++ "x") :=
  (c10_receive_truncates (fun _ => "x") "a" [7]).2.1 (by decide)

/-! ## Step lemmas for the resolver loop -/

/-- A transport error with attempts remaining: sleep the current backoff,
double it (capped at 5000 ms), move to the next attempt. -/
theorem resolveAux_step_transport {A : Type} (parse : String → Option A)
    (peer : String) (responses : Nat → HttpResponse)
    (m fuel attempt backoff : Nat) (sleeps : List Nat) (reqs : Nat)
    (hf : fuel ≠ 0) (ha : attempt < m)
    (hr : responses attempt = .transportError) :
    resolveAux parse peer responses m fuel attempt backoff sleeps reqs
      = resolveAux parse peer responses m (fuel - 1) (attempt + 1)
          (min (backoff * 2) 5000) (sleeps ++ [backoff]) (reqs + 1) := by
  cases fuel with
  | zero => exact absurd rfl hf
  | succ n => simp only [resolveAux, hr, if_pos ha, Nat.succ_sub_one]

/-- An HTTP 404 with attempts remaining: sleep a fixed 600 ms, reset the
backoff to 400 ms, move to the next attempt. -/
theorem resolveAux_step_404 {A : Type} (parse : String → Option A)
    (peer : String) (responses : Nat → HttpResponse)
    (m fuel attempt backoff : Nat) (sleeps : List Nat) (reqs : Nat)
    (body : String) (hf : fuel ≠ 0) (ha : attempt < m)
    (hr : responses attempt = .status 404 body) :
    resolveAux parse peer responses m fuel attempt backoff sleeps reqs
      = resolveAux parse peer responses m (fuel - 1) (attempt + 1)
          400 (sleeps ++ [600]) (reqs + 1) := by
  cases fuel with
  | zero => exact absurd rfl hf
  | succ n =>
    simp only [resolveAux, hr, Nat.succ_sub_one]
    norm_num [if_pos ha]

/-- A transport error on the last attempt: fail with the network error
carrying the attempt count. -/
theorem resolveAux_stop_transport {A : Type} (parse : String → Option A)
    (peer : String) (responses : Nat → HttpResponse)
    (m fuel attempt backoff : Nat) (sleeps : List Nat) (reqs : Nat)
    (hf : fuel ≠ 0) (ha : ¬ attempt < m)
    (hr : responses attempt = .transportError) :
    resolveAux parse peer responses m fuel attempt backoff sleeps reqs
      = ⟨.error (.networkError attempt m), sleeps, reqs + 1⟩ := by
  cases fuel with
  | zero => exact absurd rfl hf
  | succ n => simp only [resolveAux, hr, if_neg ha]

/-- An HTTP 404 on the last attempt: fail naming the peer. -/
theorem resolveAux_stop_404 {A : Type} (parse : String → Option A)
    (peer : String) (responses : Nat → HttpResponse)
    (m fuel attempt backoff : Nat) (sleeps : List Nat) (reqs : Nat)
    (body : String) (hf : fuel ≠ 0) (ha : ¬ attempt < m)
    (hr : responses attempt = .status 404 body) :
    resolveAux parse peer responses m fuel attempt backoff sleeps reqs
      = ⟨.error (.peerNotFound peer), sleeps, reqs + 1⟩ := by
  cases fuel with
  | zero => exact absurd rfl hf
  | succ n =>
    simp only [resolveAux, hr]
    norm_num [if_neg ha]

/-- An HTTP 200 whose trimmed body parses: success. -/
theorem resolveAux_stop_200_ok {A : Type} (parse : String → Option A)
    (peer : String) (responses : Nat → HttpResponse)
    (m fuel attempt backoff : Nat) (sleeps : List Nat) (reqs : Nat)
    (body : String) (addr : A) (hf : fuel ≠ 0)
    (hr : responses attempt = .status 200 body)
    (hp : parse (trimStr body) = some addr) :
    resolveAux parse peer responses m fuel attempt backoff sleeps reqs
      = ⟨.ok addr, sleeps, reqs + 1⟩ := by
  cases fuel with
  | zero => exact absurd rfl hf
  | succ n => simp [resolveAux, hr, hp]

/-- An HTTP 200 whose trimmed body does not parse: immediate failure. -/
theorem resolveAux_stop_200_bad {A : Type} (parse : String → Option A)
    (peer : String) (responses : Nat → HttpResponse)
    (m fuel attempt backoff : Nat) (sleeps : List Nat) (reqs : Nat)
    (body : String) (hf : fuel ≠ 0)
    (hr : responses attempt = .status 200 body)
    (hp : parse (trimStr body) = none) :
    resolveAux parse peer responses m fuel attempt backoff sleeps reqs
      = ⟨.error (.parseFailure (trimStr body)), sleeps, reqs + 1⟩ := by
  cases fuel with
  | zero => exact absurd rfl hf
  | succ n => simp [resolveAux, hr, hp]

/-- Any status other than 200 and 404: immediate failure. -/
theorem resolveAux_stop_other {A : Type} (parse : String → Option A)
    (peer : String) (responses : Nat → HttpResponse)
    (m fuel attempt backoff : Nat) (sleeps : List Nat) (reqs : Nat)
    (code : Nat) (body : String) (hf : fuel ≠ 0)
    (hr : responses attempt = .status code body)
    (h200 : code ≠ 200) (h404 : code ≠ 404) :
    resolveAux parse peer responses m fuel attempt backoff sleeps reqs
      = ⟨.error (.unexpectedStatus code), sleeps, reqs + 1⟩ := by
  cases fuel with
  | zero => exact absurd rfl hf
  | succ n => simp only [resolveAux, hr, if_neg h200, if_neg h404]

/-- Every run of the loop can only increase the request count. -/
theorem resolveAux_reqs_le {A : Type} (parse : String → Option A)
    (peer : String) (responses : Nat → HttpResponse) (m : Nat) :
    ∀ (fuel attempt backoff : Nat) (sleeps : List Nat) (reqs : Nat),
      reqs ≤ (resolveAux parse peer responses m fuel attempt backoff sleeps
        reqs).requests := by
  intro fuel
  induction fuel with
  | zero => intro attempt backoff sleeps reqs; exact Nat.le_refl _
  | succ n ih =>
    intro attempt backoff sleeps reqs
    simp only [resolveAux]
    cases responses attempt with
    | transportError =>
      by_cases ha : attempt < m
      · simp only [if_pos ha]
        exact Nat.le_trans (Nat.le_succ _) (ih _ _ _ _)
      · simp only [if_neg ha]
        exact Nat.le_succ _
    | status code body =>
      by_cases h200 : code = 200
      · simp only [if_pos h200]
        cases parse (trimStr body) <;> exact Nat.le_succ _
      · by_cases h404 : code = 404
        · simp only [if_neg h200, if_pos h404]
          by_cases ha : attempt < m
          · simp only [if_pos ha]
            exact Nat.le_trans (Nat.le_succ _) (ih _ _ _ _)
          · simp only [if_neg ha]
            exact Nat.le_succ _
        · simp only [if_neg h200, if_neg h404]
          exact Nat.le_succ _

/-- With at least one attempt left, the loop issues at least one more
request. -/
theorem resolveAux_reqs_lt {A : Type} (parse : String → Option A)
    (peer : String) (responses : Nat → HttpResponse)
    (m fuel attempt backoff : Nat) (sleeps : List Nat) (reqs : Nat)
    (hf : fuel ≠ 0) :
    reqs + 1 ≤ (resolveAux parse peer responses m fuel attempt backoff sleeps
      reqs).requests := by
  cases fuel with
  | zero => exact absurd rfl hf
  | succ n =>
    simp only [resolveAux]
    cases responses attempt with
    | transportError =>
      by_cases ha : attempt < m
      · simp only [if_pos ha]
        exact resolveAux_reqs_le parse peer responses m n _ _ _ _
      · simp only [if_neg ha]
        exact Nat.le_refl _
    | status code body =>
      by_cases h200 : code = 200
      · simp only [if_pos h200]
        cases parse (trimStr body) <;> exact Nat.le_refl _
      · by_cases h404 : code = 404
        · simp only [if_neg h200, if_pos h404]
          by_cases ha : attempt < m
          · simp only [if_pos ha]
            exact resolveAux_reqs_le parse peer responses m n _ _ _ _
          · simp only [if_neg ha]
            exact Nat.le_refl _
        · simp only [if_neg h200, if_neg h404]
          exact Nat.le_refl _

/-- Advancing over a prefix of retryable responses: after `j ≤ 4` retried
attempts the loop is at attempt `j + 1` with `j` requests issued and `j`
sleeps taken. -/
theorem resolveAux_advance {A : Type} (parse : String → Option A)
    (peer : String) (responses : Nat → HttpResponse) :
    ∀ j, j ≤ 4 → (∀ i, 1 ≤ i → i ≤ j → isRetryable (responses i) = true) →
    ∃ (backoff : Nat) (sleeps : List Nat),
      get_peer_address parse peer responses
        = resolveAux parse peer responses 5 (5 - j) (j + 1) backoff sleeps j ∧
      sleeps.length = j := by
  intro j
  induction j with
  | zero => intro _ _; exact ⟨400, [], rfl, rfl⟩
  | succ n ih =>
    intro hj hr
    obtain ⟨b, sl, heq, hlen⟩ := ih (by omega) fun i h1 h2 => hr i h1 (by omega)
    have hfuel : (5 - n) ≠ 0 := by omega
    have han : n + 1 < 5 := by omega
    have hret := hr (n + 1) (by omega) (by omega)
    have hsub : 5 - n - 1 = 5 - (n + 1) := by omega
    cases hresp : responses (n + 1) with
    | transportError =>
      refine ⟨min (b * 2) 5000, sl ++ [b], ?_, by simp [hlen]⟩
      rw [heq, resolveAux_step_transport parse peer responses 5 _ _ _ _ _
        hfuel han hresp, hsub]
    | status code body =>
      have hcode : code = 404 := by
        rw [hresp] at hret
        simpa [isRetryable] using hret
      subst hcode
      refine ⟨400, sl ++ [600], ?_, by simp [hlen]⟩
      rw [heq, resolveAux_step_404 parse peer responses 5 _ _ _ _ _ body
        hfuel han hresp, hsub]

/-- Advancing over a prefix of 404 responses: the sleeps are a fixed
600 ms each and the backoff stays at its reset value of 400 ms. -/
theorem resolveAux_advance_404 {A : Type} (parse : String → Option A)
    (peer : String) (responses : Nat → HttpResponse) :
    ∀ j, j ≤ 4 → (∀ i, 1 ≤ i → i ≤ j → responses i = .status 404 "") →
    get_peer_address parse peer responses
      = resolveAux parse peer responses 5 (5 - j) (j + 1) 400
          (List.replicate j 600) j := by
  intro j
  induction j with
  | zero => intro _ _; rfl
  | succ n ih =>
    intro hj hr
    have heq := ih (by omega) fun i h1 h2 => hr i h1 (by omega)
    have hfuel : (5 - n) ≠ 0 := by omega
    have han : n + 1 < 5 := by omega
    have hsub : 5 - n - 1 = 5 - (n + 1) := by omega
    rw [heq, resolveAux_step_404 parse peer responses 5 _ _ _ _ _ ""
      hfuel han (hr (n + 1) (by omega) (by omega)), hsub,
      ← List.replicate_succ' n 600]

/-! ## C2: the 404 retry policy -/

/-- C2: against a server that answers 404 exactly `N` times and then 200
with a parseable address, the resolver sleeps a fixed 600 ms after each
retried 404 (the transport backoff plays no role: every sleep is exactly
600 ms) and succeeds on attempt `N + 1` when `N + 1 ≤ 5`, having issued
exactly `N + 1` requests; when `N + 1 > 5` it fails after 5 attempts with
the error naming the peer as not found. -/
theorem c2_notfound_retry {A : Type} (parse : String → Option A)
    (peer : String) (body : String) (addr : A) (N : Nat)
    (hp : parse (trimStr body) = some addr) :
    (N + 1 ≤ 5 →
      get_peer_address parse peer
          (fun attempt => if attempt ≤ N then .status 404 "" else .status 200 body)
        = ⟨.ok addr, List.replicate N 600, N + 1⟩) ∧
    (5 < N + 1 →
      get_peer_address parse peer
          (fun attempt => if attempt ≤ N then .status 404 "" else .status 200 body)
        = ⟨.error (.peerNotFound peer), List.replicate 4 600, 5⟩) := by
  constructor
  · intro hN
    rw [resolveAux_advance_404 parse peer _ N (by omega)
      (fun i h1 h2 => by simp [h2])]
    rw [resolveAux_stop_200_ok parse peer _ 5 _ _ _ _ _ body addr
      (by omega) (by simp) hp]
  · intro hN
    rw [resolveAux_advance_404 parse peer _ 4 (by omega)
      (fun i h1 h2 => by simp [show i ≤ N by omega])]
    rw [resolveAux_stop_404 parse peer _ 5 _ _ _ _ _ ""
      (by omega) (by omega) (by simp [show 5 ≤ N by omega])]

/-- C2 witness: two 404s, then a parseable 200. -/
theorem c2_witness :
    get_peer_address (fun s => some s) "peer"
        (fun attempt => if attempt ≤ 2 then .status 404 "" else .status 200 "a")
      = ⟨.ok "a", List.replicate 2 600, 3⟩ :=
  (c2_notfound_retry (fun s => some s) "peer" "a" "a" 2 (by decide)).1
    (by decide)

/-! ## C4: the two non-transient fatal cases -/

/-- C4: after any prefix of retried (transport-error or 404) attempts, the
resolver fails immediately — with exactly the requests issued so far and
no further sleep — in exactly the two non-transient cases: a 200 whose
trimmed body does not parse, and any status other than 200 and 404.  By
contrast a retryable response before the last attempt always leads to at
least one further request. -/
theorem c4_nonretryable_fatal {A : Type} (parse : String → Option A)
    (peer : String) (responses : Nat → HttpResponse) (k : Nat)
    (h1 : 1 ≤ k) (h5 : k ≤ 5)
    (hpre : ∀ i, 1 ≤ i → i < k → isRetryable (responses i) = true) :
    (∀ body, responses k = .status 200 body → parse (trimStr body) = none →
      ∃ sleeps, get_peer_address parse peer responses
          = ⟨.error (.parseFailure (trimStr body)), sleeps, k⟩ ∧
        sleeps.length = k - 1) ∧
    (∀ code body, responses k = .status code body → code ≠ 200 → code ≠ 404 →
      ∃ sleeps, get_peer_address parse peer responses
          = ⟨.error (.unexpectedStatus code), sleeps, k⟩ ∧
        sleeps.length = k - 1) ∧
    (k < 5 → isRetryable (responses k) = true →
      k + 1 ≤ (get_peer_address parse peer responses).requests) := by
  obtain ⟨b, sl, heq, hlen⟩ := resolveAux_advance parse peer responses (k - 1)
    (by omega) (fun i hi1 hi2 => hpre i hi1 (by omega))
  have hk1 : k - 1 + 1 = k := by omega
  rw [hk1] at heq
  have hfuel : (5 - (k - 1)) ≠ 0 := by omega
  refine ⟨fun body hr hp => ?_, fun code body hr h200 h404 => ?_,
    fun hlt hret => ?_⟩
  · refine ⟨sl, ?_, hlen⟩
    rw [heq, resolveAux_stop_200_bad parse peer responses 5 _ _ _ _ _ body
      hfuel hr hp, hk1]
  · refine ⟨sl, ?_, hlen⟩
    rw [heq, resolveAux_stop_other parse peer responses 5 _ _ _ _ _ code body
      hfuel hr h200 h404, hk1]
  · cases hresp : responses k with
    | transportError =>
      rw [heq, resolveAux_step_transport parse peer responses 5 _ _ _ _ _
        hfuel (by omega) hresp, hk1]
      exact resolveAux_reqs_lt parse peer responses 5 _ _ _ _ _ (by omega)
    | status code body =>
      have hcode : code = 404 := by
        rw [hresp] at hret
        simpa [isRetryable] using hret
      subst hcode
      rw [heq, resolveAux_step_404 parse peer responses 5 _ _ _ _ _ body
        hfuel (by omega) hresp, hk1]
      exact resolveAux_reqs_lt parse peer responses 5 _ _ _ _ _ (by omega)

/-- C4 witness: one retried 404, then an unexpected status 500. -/
theorem c4_witness :
    ∃ sleeps, get_peer_address (fun _ => (none : Option Nat)) "p"
        (fun i => if i = 1 then .status 404 "" else .status 500 "oops")
      = ⟨.error (.unexpectedStatus 500), sleeps, 2⟩ ∧ sleeps.length = 1 :=
  ((c4_nonretryable_fatal (fun _ => (none : Option Nat)) "p"
      (fun i => if i = 1 then .status 404 "" else .status 500 "oops") 2
      (by decide) (by decide)
      (fun i hi1 hi2 => by
        have hi : i = 1 := by omega
        subst hi
        rfl)).2.1)
    500 "oops" (by decide) (by decide) (by decide)

/-! ## Bitwise facts on bytes, by bounded enumeration -/

theorem nat_and_31 : ∀ x, x < 32 → x &&& 31 = x := by decide

theorem nat_or_192 : ∀ x, x < 32 → x ||| 192 = 192 + x := by decide

set_option maxRecDepth 2048 in
theorem nat_and_63 : ∀ x, x < 256 → x &&& 63 = x % 64 := by decide

theorem nat_or_128 : ∀ x, x < 64 → x ||| 128 = 128 + x := by decide

theorem nat_and_15 : ∀ x, x < 16 → x &&& 15 = x := by decide

theorem nat_or_224 : ∀ x, x < 16 → x ||| 224 = 224 + x := by decide

theorem nat_and_7 : ∀ x, x < 8 → x &&& 7 = x := by decide

theorem nat_or_240 : ∀ x, x < 8 → x ||| 240 = 240 + x := by decide

/-- Every Unicode scalar value is below `0x110000`. -/
theorem char_toNat_lt (c : Char) : c.val.toNat < 0x110000 := by
  rcases c.valid with h | h
  · omega
  · omega

/-! ## Closed forms of the UTF-8 encoding of one character -/

/-- One-byte sequence: code points up to `0x7f`. -/
theorem utf8CharBytes_case1 (c : Char) (h1 : c.val.toNat ≤ 0x7f) :
    utf8CharBytes c = [c.val.toNat] := by
  unfold utf8CharBytes String.utf8EncodeChar
  rw [if_pos (show c.val ≤ 0x7f from h1)]
  simp only [List.map]
  have e0 : (c.val.toUInt8).toNat = c.val.toNat % 256 := rfl
  rw [e0, Nat.mod_eq_of_lt (by omega)]

/-- Two-byte sequence: code points `0x80` to `0x7ff`. -/
theorem utf8CharBytes_case2 (c : Char) (h1 : ¬ c.val.toNat ≤ 0x7f)
    (h2 : c.val.toNat ≤ 0x7ff) :
    utf8CharBytes c
      = [0xc0 + c.val.toNat / 64, 0x80 + c.val.toNat % 64] := by
  unfold utf8CharBytes String.utf8EncodeChar
  rw [if_neg (show ¬ c.val ≤ 0x7f from h1), if_pos (show c.val ≤ 0x7ff from h2)]
  simp only [List.map]
  have e0 : ((c.val >>> 6).toUInt8 &&& 0x1f ||| 0xc0).toNat
      = ((c.val.toNat >>> 6) % 256) &&& 31 ||| 192 := rfl
  have e1 : (c.val.toUInt8 &&& 0x3f ||| 0x80).toNat
      = (c.val.toNat % 256) &&& 63 ||| 128 := rfl
  rw [e0, e1, Nat.shiftRight_eq_div_pow]
  rw [Nat.mod_eq_of_lt (show c.val.toNat / 2^6 < 256 by omega)]
  rw [nat_and_31 _ (by omega), nat_or_192 _ (by omega)]
  rw [nat_and_63 _ (by omega), Nat.mod_mod_of_dvd _ (by norm_num),
    nat_or_128 _ (by omega)]
  norm_num

/-- Three-byte sequence: code points `0x800` to `0xffff`. -/
theorem utf8CharBytes_case3 (c : Char) (h2 : ¬ c.val.toNat ≤ 0x7ff)
    (h3 : c.val.toNat ≤ 0xffff) :
    utf8CharBytes c
      = [0xe0 + c.val.toNat / 4096, 0x80 + c.val.toNat / 64 % 64,
         0x80 + c.val.toNat % 64] := by
  unfold utf8CharBytes String.utf8EncodeChar
  rw [if_neg (show ¬ c.val ≤ 0x7f by exact fun hc => h2 (by
    exact Nat.le_trans (show c.val.toNat ≤ 0x7f from hc) (by norm_num))),
    if_neg (show ¬ c.val ≤ 0x7ff from h2),
    if_pos (show c.val ≤ 0xffff from h3)]
  simp only [List.map]
  have e0 : ((c.val >>> 12).toUInt8 &&& 0x0f ||| 0xe0).toNat
      = ((c.val.toNat >>> 12) % 256) &&& 15 ||| 224 := rfl
  have e1 : ((c.val >>> 6).toUInt8 &&& 0x3f ||| 0x80).toNat
      = ((c.val.toNat >>> 6) % 256) &&& 63 ||| 128 := rfl
  have e2 : (c.val.toUInt8 &&& 0x3f ||| 0x80).toNat
      = (c.val.toNat % 256) &&& 63 ||| 128 := rfl
  rw [e0, e1, e2, Nat.shiftRight_eq_div_pow, Nat.shiftRight_eq_div_pow]
  rw [Nat.mod_eq_of_lt (show c.val.toNat / 2^12 < 256 by omega)]
  rw [nat_and_15 _ (by omega), nat_or_224 _ (by omega)]
  rw [nat_and_63 _ (Nat.mod_lt _ (by norm_num)),
    Nat.mod_mod_of_dvd _ (by norm_num),
    nat_and_63 _ (Nat.mod_lt _ (by norm_num)),
    Nat.mod_mod_of_dvd _ (by norm_num)]
  rw [nat_or_128 _ (Nat.mod_lt _ (by norm_num)),
    nat_or_128 _ (Nat.mod_lt _ (by norm_num))]
  norm_num

/-- Four-byte sequence: code points above `0xffff`. -/
theorem utf8CharBytes_case4 (c : Char) (h3 : ¬ c.val.toNat ≤ 0xffff) :
    utf8CharBytes c
      = [0xf0 + c.val.toNat / 262144, 0x80 + c.val.toNat / 4096 % 64,
         0x80 + c.val.toNat / 64 % 64, 0x80 + c.val.toNat % 64] := by
  have hub := char_toNat_lt c
  unfold utf8CharBytes String.utf8EncodeChar
  rw [if_neg (show ¬ c.val ≤ 0x7f by exact fun hc => h3 (by
    exact Nat.le_trans (show c.val.toNat ≤ 0x7f from hc) (by norm_num))),
    if_neg (show ¬ c.val ≤ 0x7ff by exact fun hc => h3 (by
    exact Nat.le_trans (show c.val.toNat ≤ 0x7ff from hc) (by norm_num))),
    if_neg (show ¬ c.val ≤ 0xffff from h3)]
  simp only [List.map]
  have e0 : ((c.val >>> 18).toUInt8 &&& 0x07 ||| 0xf0).toNat
      = ((c.val.toNat >>> 18) % 256) &&& 7 ||| 240 := rfl
  have e1 : ((c.val >>> 12).toUInt8 &&& 0x3f ||| 0x80).toNat
      = ((c.val.toNat >>> 12) % 256) &&& 63 ||| 128 := rfl
  have e2 : ((c.val >>> 6).toUInt8 &&& 0x3f ||| 0x80).toNat
      = ((c.val.toNat >>> 6) % 256) &&& 63 ||| 128 := rfl
  have e3 : (c.val.toUInt8 &&& 0x3f ||| 0x80).toNat
      = (c.val.toNat % 256) &&& 63 ||| 128 := rfl
  rw [e0, e1, e2, e3, Nat.shiftRight_eq_div_pow, Nat.shiftRight_eq_div_pow,
    Nat.shiftRight_eq_div_pow]
  rw [Nat.mod_eq_of_lt (show c.val.toNat / 2^18 < 256 by omega)]
  rw [nat_and_7 _ (by omega), nat_or_240 _ (by omega)]
  rw [nat_and_63 _ (Nat.mod_lt _ (by norm_num)),
    Nat.mod_mod_of_dvd _ (by norm_num),
    nat_and_63 _ (Nat.mod_lt _ (by norm_num)),
    Nat.mod_mod_of_dvd _ (by norm_num),
    nat_and_63 _ (Nat.mod_lt _ (by norm_num)),
    Nat.mod_mod_of_dvd _ (by norm_num)]
  rw [nat_or_128 _ (Nat.mod_lt _ (by norm_num)),
    nat_or_128 _ (Nat.mod_lt _ (by norm_num)),
    nat_or_128 _ (Nat.mod_lt _ (by norm_num))]
  norm_num

/-! ## UTF-8 decoding inverts encoding -/

/-- Rebuilding a character from its own code point gives the character
back. -/
theorem mkCodePoint_toNat (c : Char) : mkCodePoint c.val.toNat = some c := by
  unfold mkCodePoint
  rw [dif_pos c.valid]
  exact congrArg some (Char.eq_of_val_eq (UInt32.toNat.inj rfl))

/-- Decoding the encoding of one character consumes exactly its bytes and
returns the character. -/
theorem decodeUtf8Char_encode (c : Char) (rest : List Nat) :
    decodeUtf8Char (utf8CharBytes c ++ rest) = some (c, rest) := by
  by_cases h1 : c.val.toNat ≤ 0x7f
  · rw [utf8CharBytes_case1 c h1]
    simp only [List.cons_append, List.nil_append, decodeUtf8Char]
    rw [if_pos (show c.val.toNat < 0x80 by omega), mkCodePoint_toNat]
    rfl
  · by_cases h2 : c.val.toNat ≤ 0x7ff
    · rw [utf8CharBytes_case2 c h1 h2]
      simp only [List.cons_append, List.nil_append, decodeUtf8Char]
      rw [if_neg (by omega), if_pos (show 0xc0 ≤ 0xc0 + c.val.toNat / 64 ∧
        0xc0 + c.val.toNat / 64 < 0xe0 by constructor <;> omega)]
      simp only [decodeUtf8Cont1]
      rw [if_pos (show isUtf8Cont (0x80 + c.val.toNat % 64) by
        constructor <;> omega)]
      have harg : (0xc0 + c.val.toNat / 64 - 0xc0) * 64
          + (0x80 + c.val.toNat % 64 - 0x80) = c.val.toNat := by omega
      rw [harg, mkCodePoint_toNat]
      rfl
    · by_cases h3 : c.val.toNat ≤ 0xffff
      · rw [utf8CharBytes_case3 c h2 h3]
        simp only [List.cons_append, List.nil_append, decodeUtf8Char]
        rw [if_neg (by omega), if_neg (by omega),
          if_pos (show 0xe0 ≤ 0xe0 + c.val.toNat / 4096 ∧
            0xe0 + c.val.toNat / 4096 < 0xf0 by constructor <;> omega)]
        simp only [decodeUtf8Cont2]
        rw [if_pos (show isUtf8Cont (0x80 + c.val.toNat / 64 % 64) ∧
          isUtf8Cont (0x80 + c.val.toNat % 64) by
          refine ⟨⟨?_, ?_⟩, ⟨?_, ?_⟩⟩ <;> omega)]
        have harg : (0xe0 + c.val.toNat / 4096 - 0xe0) * 4096
            + (0x80 + c.val.toNat / 64 % 64 - 0x80) * 64
            + (0x80 + c.val.toNat % 64 - 0x80) = c.val.toNat := by omega
        rw [harg, mkCodePoint_toNat]
        rfl
      · have hub := char_toNat_lt c
        rw [utf8CharBytes_case4 c h3]
        simp only [List.cons_append, List.nil_append, decodeUtf8Char]
        rw [if_neg (by omega), if_neg (by omega), if_neg (by omega),
          if_pos (show 0xf0 ≤ 0xf0 + c.val.toNat / 262144 ∧
            0xf0 + c.val.toNat / 262144 < 0xf8 by constructor <;> omega)]
        simp only [decodeUtf8Cont3]
        rw [if_pos (show isUtf8Cont (0x80 + c.val.toNat / 4096 % 64) ∧
          isUtf8Cont (0x80 + c.val.toNat / 64 % 64) ∧
          isUtf8Cont (0x80 + c.val.toNat % 64) by
          refine ⟨⟨?_, ?_⟩, ⟨?_, ?_⟩, ⟨?_, ?_⟩⟩ <;> omega)]
        have harg : (0xf0 + c.val.toNat / 262144 - 0xf0) * 262144
            + (0x80 + c.val.toNat / 4096 % 64 - 0x80) * 4096
            + (0x80 + c.val.toNat / 64 % 64 - 0x80) * 64
            + (0x80 + c.val.toNat % 64 - 0x80) = c.val.toNat := by omega
        rw [harg, mkCodePoint_toNat]
        rfl

/-- The UTF-8 encoding of a character is never empty. -/
theorem utf8CharBytes_ne_nil (c : Char) : utf8CharBytes c ≠ [] := by
  intro h
  have hl := congrArg List.length h
  simp [utf8CharBytes, String.length_utf8EncodeChar] at hl
  have hp := c.utf8Size_pos
  omega

/-- Decoding the concatenated encodings of a character list recovers the
list, given enough fuel. -/
theorem decodeUtf8Go_encode : ∀ (l : List Char) (fuel : Nat),
    (l.flatMap utf8CharBytes).length ≤ fuel →
    decodeUtf8Go fuel (l.flatMap utf8CharBytes) = some l := by
  intro l
  induction l with
  | nil => intro fuel h; cases fuel <;> rfl
  | cons c cs ih =>
    intro fuel h
    rw [List.flatMap_cons] at h ⊢
    have hne := utf8CharBytes_ne_nil c
    obtain ⟨b, bs, hb⟩ : ∃ b bs, utf8CharBytes c = b :: bs := by
      cases hu : utf8CharBytes c with
      | nil => exact absurd hu hne
      | cons b bs => exact ⟨b, bs, rfl⟩
    have hlen : 1 ≤ (utf8CharBytes c).length := by
      rw [hb]; exact Nat.succ_le_succ (Nat.zero_le _)
    rw [List.length_append] at h
    cases fuel with
    | zero => omega
    | succ f =>
      rw [hb, List.cons_append]
      simp only [decodeUtf8Go]
      have hdec : decodeUtf8Char (b :: (bs ++ cs.flatMap utf8CharBytes))
          = some (c, cs.flatMap utf8CharBytes) := by
        rw [← List.cons_append, ← hb]
        exact decodeUtf8Char_encode c _
      simp only [hdec, Option.some_bind]
      rw [ih f (by omega)]
      rfl

/-- The byte list of a string is the concatenation of the byte lists of
its characters. -/
theorem utf8Bytes_eq_flatMap (s : String) :
    utf8Bytes s = s.data.flatMap utf8CharBytes := by
  unfold utf8Bytes
  show (String.toUTF8 s).data.toList.map UInt8.toNat = _
  unfold String.toUTF8
  have h : (ByteArray.mk (Array.mk (s.data.flatMap String.utf8EncodeChar))).data.toList
      = s.data.flatMap String.utf8EncodeChar := rfl
  rw [h]
  induction s.data with
  | nil => rfl
  | cons c cs ih =>
    rw [List.flatMap_cons, List.flatMap_cons, List.map_append, ih]
    rfl

/-- Decoding the UTF-8 bytes of a string recovers the string. -/
theorem decodeUtf8_encode (s : String) :
    decodeUtf8 (utf8Bytes s) = some s := by
  unfold decodeUtf8
  rw [utf8Bytes_eq_flatMap, decodeUtf8Go_encode s.data _ (Nat.le_refl _)]
  rfl

/-- Stripping the framing of a registration packet recovers exactly the
name bytes. -/
theorem decodeRegistrationPacket_encode (name : String) :
    decodeRegistrationPacket (registrationPacket name)
      = some (utf8Bytes name) := by
  unfold registrationPacket
  simp only [decodeRegistrationPacket]
  rw [if_pos ⟨trivial, List.getLast?_concat _⟩, List.dropLast_concat]

/-! ## C6: the registration packet and its round trip -/

/-- C6: `register` builds the packet `0x00 || name-bytes || 0xFF`, its
loop performs exactly 3 sends of exactly this packet to
`rendezvous:4200`, each followed by the fixed 200 ms sleep, and the
encoding round-trips: stripping the framing recovers the name bytes, and
full decoding recovers the original name. -/
theorem c6_register_packet_roundtrip (rendezvous name : String) :
    registerTrace rendezvous name
      = [.sendTo (registrationPacket name) rendezvous 4200, .sleep 200,
         .sendTo (registrationPacket name) rendezvous 4200, .sleep 200,
         .sendTo (registrationPacket name) rendezvous 4200, .sleep 200] ∧
    registrationPacket name = 0x00 :: (utf8Bytes name ++ [0xFF]) ∧
    decodeRegistrationPacket (registrationPacket name)
      = some (utf8Bytes name) ∧
    decodeRegistrationName (registrationPacket name) = some name := by
  refine ⟨rfl, rfl, decodeRegistrationPacket_encode name, ?_⟩
  unfold decodeRegistrationName
  rw [decodeRegistrationPacket_encode name, Option.some_bind]
  exact decodeUtf8_encode name

/-- C3 witness: the concrete trace against an always-failing transport,
and the cap check for its largest sleep. -/
theorem c3_witness :
    get_peer_address (fun s => some s) "p"
        (fun _ => HttpResponse.transportError)
      = ⟨.error (.networkError 5 5), [400, 800, 1600, 3200], 5⟩ ∧
    400 ≤ 3200 ∧ 3200 ≤ 5000 :=
  ⟨(c3_transport_error_backoff (fun s => some s) "p").1,
   (c3_transport_error_backoff (fun s => some s) "p").2.2.2 3200 (by decide)⟩
